import Mathlib

/-!
Verification of the Markdown sanitization / validation pipeline of grimd2pdf
(`grimd2pdf/server.py`: `sanitize_markdown_content`, `validate_markdown_structure`).

Text is modelled as `List Char` (a shallow embedding of Python `str`,
restricted to the ASCII fragment all inputs in this development live in:
the Python regexes `\s`, `\w` also match some non-ASCII characters, which
never occur here).  Each definition below is translated from the source
function named in its doc comment.
-/

namespace Grimd2pdf

/-- Python `str` as a list of characters. -/
abbrev Str := List Char

/-- The characters of a Lean string literal. -/
def chars (s : String) : Str := s.data

/-- ASCII whitespace: what Python's `str.strip()` and the regex class `\s`
recognise on ASCII text (`' '`, `\t`, `\n`, `\r`, `\x0b`, `\x0c`). -/
def pySpace (c : Char) : Bool :=
  c == ' ' || c == '\t' || c == '\n' || c == '\r' || c == '\x0b' || c == '\x0c'

/-- The control characters removed by `sanitize_markdown_content`'s first step:
the regex class `[\x00-\x08\x0b\x0c\x0e-\x1f\x7f-\x9f]` (server.py line 42). -/
def isCtrlChar (c : Char) : Bool :=
  decide (c.toNat ≤ 8 ∨ c.toNat = 11 ∨ c.toNat = 12 ∨
    (14 ≤ c.toNat ∧ c.toNat ≤ 31) ∨ (127 ≤ c.toNat ∧ c.toNat ≤ 159))

/-- Python `str.rstrip()`. -/
def rstripPy (s : Str) : Str := (s.reverse.dropWhile pySpace).reverse

/-- Python `str.strip()`. -/
def stripPy (s : Str) : Str := rstripPy (s.dropWhile pySpace)

/-- Python `str.split('\n')`. -/
def splitNL : Str → List Str
  | [] => [[]]
  | c :: t =>
    if c = '\n' then [] :: splitNL t
    else
      match splitNL t with
      | [] => [[c]]
      | h :: r => (c :: h) :: r

/-- Python `'\n'.join(lines)`. -/
def joinNL : List Str → Str
  | [] => []
  | [l] => l
  | l :: r => l ++ '\n' :: joinNL r

/-- Decimal digit character, for rendering numbers the way Python f-strings do. -/
def digitChar : Nat → Char
  | 0 => '0' | 1 => '1' | 2 => '2' | 3 => '3' | 4 => '4'
  | 5 => '5' | 6 => '6' | 7 => '7' | 8 => '8' | _ => '9'

/-- Decimal rendering of a natural number, fuelled so that it is structural
(the fuel `n + 1` always suffices since a number has at most `n + 1` digits). -/
def natToDecAux : Nat → Nat → Str
  | 0, _ => []
  | fuel + 1, n =>
    if n < 10 then [digitChar n]
    else natToDecAux fuel (n / 10) ++ [digitChar (n % 10)]

/-- The decimal rendering of `n`, as a Python f-string `{n}` produces it. -/
def natToDec (n : Nat) : Str := natToDecAux (n + 1) n

/-- Value of a decimal digit character. -/
def digitVal (c : Char) : Nat := c.toNat - 48

/-- Reading a decimal string back as a number (used only to prove that
`natToDec` is injective). -/
def decVal (s : Str) : Nat := s.foldl (fun a c => a * 10 + digitVal c) 0

/-- Python `s.replace(old, new, 1)`: rewrite the leftmost occurrence of
`old` (as a substring) by `new`. -/
def replaceFirst (old new : Str) : Str → Str
  | [] => if old.isPrefixOf ([] : Str) then new else []
  | c :: t =>
    if old.isPrefixOf (c :: t) then new ++ (c :: t).drop old.length
    else c :: replaceFirst old new t

/-- Python `sub in s`: substring containment. -/
def hasSub (sub : Str) : Str → Bool
  | [] => sub.isPrefixOf ([] : Str)
  | c :: t => sub.isPrefixOf (c :: t) || hasSub sub t

/-- Python `s.split(sep)` for a non-empty separator: split at every
non-overlapping occurrence of `sep`, scanning from the left.  Fuelled so the
recursion is structural; fuel `s.length + 1` always suffices. -/
def pySplitAux (sep : Str) : Nat → Str → Str → List Str
  | 0, acc, s => [acc.reverse ++ s]
  | fuel + 1, acc, s =>
    if sep.isPrefixOf s && !sep.isEmpty then
      acc.reverse :: pySplitAux sep fuel [] (s.drop sep.length)
    else
      match s with
      | [] => [acc.reverse]
      | c :: t => pySplitAux sep fuel (c :: acc) t

/-- Python `s.split(sep)` (non-empty `sep`). -/
def pySplit (s sep : Str) : List Str := pySplitAux sep (s.length + 1) [] s

/-! ## Table repair (server.py lines 44-106) -/

/-- `stripped_line.startswith('|')`. -/
def startsPipe : Str → Bool
  | '|' :: _ => true
  | _ => false

/-- `stripped_line.endswith('|')`. -/
def endsPipe (s : Str) : Bool :=
  match s.getLast? with
  | some c => c == '|'
  | none => false

/-- Warning `f"Added missing table header separator at line {i+1}"` (line 67). -/
def sepWarnMsg (n : Nat) : Str :=
  chars "Added missing table header separator at line " ++ natToDec n

/-- Warning `f"Fixed incomplete table row at line {i+1}"` (lines 72, 75, 79). -/
def rowWarnMsg (n : Nat) : Str :=
  chars "Fixed incomplete table row at line " ++ natToDec n

/-- Warning `f"Converted plain text to table row at line {i+1}"` (line 95). -/
def convWarnMsg (n : Nat) : Str :=
  chars "Converted plain text to table row at line " ++ natToDec n

/-- The synthesized header separator (lines 63-65):
`'|' + '---|' * (pipe_count if pipe_count >= 2 else 2)`, plus the source's
(vacuous) guard appending a final `'|'` when the result does not end in one. -/
def mkSeparator (pipe_count : Nat) : Str :=
  let reps := if 2 ≤ pipe_count then pipe_count else 2
  let sep := '|' :: (List.replicate reps (chars "---|")).flatten
  if endsPipe sep then sep else sep ++ ['|']

/-- A delimiter-less data row rewritten as a table row (line 94):
`'| ' + ' | '.join(cells) + ' |'`. -/
def mkRow (cells : List Str) : Str :=
  chars "| " ++ List.intercalate (chars " | ") cells ++ chars " |"

/-- The cell-splitting attempt of lines 84-90: try `'\t'`, then `'  '`, then
`' '` as separator (first one present in the stripped line wins); cells are
the stripped non-empty pieces.  `none` when no separator occurs. -/
def findCells (stripped : Str) : Option (List Str) :=
  if hasSub (chars "\t") stripped then
    some (((pySplit stripped (chars "\t")).map stripPy).filter (fun c => !c.isEmpty))
  else if hasSub (chars "  ") stripped then
    some (((pySplit stripped (chars "  ")).map stripPy).filter (fun c => !c.isEmpty))
  else if hasSub (chars " ") stripped then
    some (((pySplit stripped (chars " ")).map stripPy).filter (fun c => !c.isEmpty))
  else none

/-- The state threaded through the table-repair loop: the `in_table` flag and
`table_columns` of lines 47-48, and the accumulating `fixed_lines` and
`warnings` lists. -/
structure TableSt where
  in_table : Bool
  table_columns : Nat
  fixed_lines : List Str
  warnings : List Str
deriving DecidableEq

/-- The separator-insertion condition of lines 55-62: entering a table
(`not in_table`), not on the first line, the last emitted line does not start
with `'|'` once stripped, and `pipe_count >= 1`. -/
def sepNeeded (i : Nat) (st : TableSt) (pipe_count : Nat) : Bool :=
  !st.in_table && decide (0 < i) &&
    (match st.fixed_lines.getLast? with
     | some prev => !startsPipe (stripPy prev)
     | none => false) &&
    decide (1 ≤ pipe_count)

/-- The malformed-row edge repair of lines 69-79, `none` when the stripped
line already starts and ends with a delimiter. -/
def rowFix (line stripped : Str) : Option Str :=
  if startsPipe stripped && !endsPipe stripped then
    some (rstripPy line ++ ['|'])
  else if !startsPipe stripped && endsPipe stripped then
    some ('|' :: line)
  else if !startsPipe stripped && !endsPipe stripped then
    some ('|' :: (rstripPy line ++ ['|']))
  else none

/-- One iteration of the loop `for i, line in enumerate(lines)` of
lines 50-104.  New lines and warnings are appended at the end of the
accumulators, exactly as the Python `append` calls do. -/
def tableStep (i : Nat) (line : Str) (st : TableSt) : TableSt :=
  let stripped := stripPy line
  if stripped.contains '|' then
    -- `'|' in stripped_line and stripped_line` (a string containing '|' is non-empty)
    let pipe_count := stripped.count '|'
    { in_table := true
      table_columns := if !st.in_table then pipe_count + 1 else st.table_columns
      fixed_lines := st.fixed_lines ++
        (if sepNeeded i st pipe_count then [mkSeparator pipe_count] else []) ++
        [(rowFix line stripped).getD line]
      warnings := st.warnings ++
        (if sepNeeded i st pipe_count then [sepWarnMsg (i + 1)] else []) ++
        (if (rowFix line stripped).isSome then [rowWarnMsg (i + 1)] else []) }
  else if st.in_table && !stripped.isEmpty then
    -- `elif in_table and stripped_line and '|' not in stripped_line`
    match findCells stripped with
    | some cells =>
      if 2 ≤ cells.length then
        { st with fixed_lines := st.fixed_lines ++ [mkRow cells]
                  warnings := st.warnings ++ [convWarnMsg (i + 1)] }
      else
        { st with in_table := false, fixed_lines := st.fixed_lines ++ [line] }
    | none => { st with in_table := false, fixed_lines := st.fixed_lines ++ [line] }
  else
    -- blank line inside a table, or a line outside any table: `in_table = False`
    { st with in_table := false, fixed_lines := st.fixed_lines ++ [line] }

/-- The whole loop of lines 50-104 over the (enumerated) lines. -/
def tablePass : Nat → List Str → TableSt → TableSt
  | _, [], st => st
  | i, l :: t, st => tablePass (i + 1) t (tableStep i l st)

/-- Initial loop state (lines 46-48). -/
def initTableSt : TableSt := ⟨false, 0, [], []⟩

/-! ## Heading hierarchy repair (server.py lines 108-130)

The pattern `^(#{1,6})\s+(.+)$` is matched with `re.MULTILINE` over the whole
text.  `^` anchors at a line start, but `\s` also matches `'\n'`, so a match
may span lines (`"##\nx"` is a heading of level 2 with text `"x"`).  `.`
does not match `'\n'`, and `$` holds before a `'\n'` or at the end.  The
scanner below reproduces `re.finditer`: try to match at each line start,
emit non-overlapping matches from the left, resume after a match's end. -/

/-- Attempt the heading match at a position where `^` holds; returns
`(level, group2, group0)`.  The backtracking of `\s+ (.+)` is resolved: after
the maximal run of `#` (1..6 of them) comes the maximal whitespace run `w`;
if text remains, `group2` is that text up to the next newline; if the string
ends inside `w`, the regex backtracks and `group2` is the last whitespace
character, provided it is not a newline and `w` has at least 2 characters. -/
def headingMatchAt (s : Str) : Option (Nat × Str × Str) :=
  let hashes := s.takeWhile (fun c => c == '#')
  let a := hashes.length
  if 1 ≤ a ∧ a ≤ 6 then
    let r := s.drop a
    let w := r.takeWhile pySpace
    let rest := r.drop w.length
    if w.isEmpty then none
    else if !rest.isEmpty then
      let g2 := rest.takeWhile (fun c => c != '\n')
      some (a, g2, hashes ++ w ++ g2)
    else
      -- the string ends inside the whitespace run: `$` may hold before a
      -- trailing newline, so the match ends at the last non-newline
      -- whitespace character (which becomes `group(2)`), if any remains
      -- after the mandatory `\s+` character
      let keep := (w.reverse.dropWhile (fun c => c == '\n')).reverse
      match keep.getLast? with
      | some c => if decide (2 ≤ keep.length) then some (a, [c], hashes ++ keep) else none
      | none => none
  else none

/-- Drop the rest of the current line including its terminating newline:
the next position where `^` can hold. -/
def dropLine : Str → Str
  | [] => []
  | c :: t => if c = '\n' then t else dropLine t

/-- All matches of `re.finditer(r'^(#{1,6})\s+(.+)$', s, re.MULTILINE)` in
order, as `(level, group2, group0)` triples.  Fuelled (each step consumes at
least one character, so `s.length + 1` suffices). -/
def findHeadingsAux : Nat → Str → List (Nat × Str × Str)
  | 0, _ => []
  | fuel + 1, s =>
    if s.isEmpty then []
    else
      match headingMatchAt s with
      | some (a, g2, g0) => (a, g2, g0) :: findHeadingsAux fuel (dropLine (s.drop g0.length))
      | none => findHeadingsAux fuel (dropLine s)

/-- The heading matches of the text, in document order. -/
def findHeadings (s : Str) : List (Nat × Str × Str) :=
  findHeadingsAux (s.length + 1) s

/-- Warning `f"Fixed heading hierarchy jump from level {prev_level} to
{current_level}"` (line 123). -/
def hdgWarnMsg (prev current : Nat) : Str :=
  chars "Fixed heading hierarchy jump from level " ++ natToDec prev ++
    chars " to " ++ natToDec current

/-- `'#' * proper_level + ' ' + match.group(2)` (line 121). -/
def mkHeading (level : Nat) (g2 : Str) : Str :=
  List.replicate level '#' ++ ' ' :: g2

/-- The `prev_level` update of lines 117-126: a heading deeper than
`prev_level + 1` is planned to be rewritten to level `prev_level + 1`. -/
def fixLevel (prev l : Nat) : Nat :=
  if 0 < prev ∧ prev + 1 < l then prev + 1 else l

/-- The scan of lines 112-126: walk the heading matches keeping `prev_level`,
collecting the `(old, new)` text replacements and the warnings. -/
def headingScan : Nat → List (Nat × Str × Str) → List (Str × Str) × List Str
  | _, [] => ([], [])
  | prev, (l, g2, g0) :: t =>
    let res := headingScan (fixLevel prev l) t
    if 0 < prev ∧ prev + 1 < l then
      ((g0, mkHeading (prev + 1) g2) :: res.1, hdgWarnMsg prev l :: res.2)
    else res

/-- The corrected heading-level sequence the scan of lines 112-126 tracks
through `prev_level` (the levels after the planned rewrites). -/
def plannedLevels : Nat → List Nat → List Nat
  | _, [] => []
  | prev, l :: t => fixLevel prev l :: plannedLevels (fixLevel prev l) t

/-- Lines 108-130 as one function: find the headings, scan them, apply each
planned fix with `sanitized.replace(old, new, 1)`, in order. -/
def headingFixPass (s : Str) : Str × List Str :=
  let headings := findHeadings s
  if headings.isEmpty then (s, [])
  else
    let scanned := headingScan 0 headings
    (scanned.1.foldl (fun t fix => replaceFirst fix.1 fix.2 t) s, scanned.2)

/-! ## List-marker fixes (server.py lines 132-135)

`re.sub(r'^(\s*)-(\S)', r'\1- \2', s, flags=re.MULTILINE)` and its `*` and
digit-dot variants.  Again `\s*` may span newlines; for `-` and `*` the
replacement repeats `group(1)` verbatim, but the digit-dot replacement
`r'\1\g<0> \2'` repeats the whole match (including `group(1)`) — this is
reproduced exactly.  The scanner walks the text once, attempting a match at
every position where `^` holds and advancing one character otherwise. -/

/-- Match `^(\s*)<marker>(\S)` at a `^` position: `(group1, group2-char, rest)`. -/
def markerMatchAt (marker : Char) (s : Str) : Option (Str × Char × Str) :=
  let w := s.takeWhile pySpace
  match s.drop w.length with
  | m :: c :: rest => if m == marker && !pySpace c then some (w, c, rest) else none
  | _ => none

/-- The `re.sub` scan for `^(\s*)<marker>(\S)` with replacement `\1<marker> \2`. -/
def markerFixAux (marker : Char) : Nat → Bool → Str → Str
  | 0, _, s => s
  | fuel + 1, atBOL, s =>
    match (if atBOL then markerMatchAt marker s else none) with
    | some (w, c, rest) => w ++ marker :: ' ' :: c :: markerFixAux marker fuel false rest
    | none =>
      match s with
      | [] => []
      | ch :: t => ch :: markerFixAux marker fuel (ch == '\n') t

/-- Line 133 (`-`) and line 134 (`*`). -/
def markerFix (marker : Char) (s : Str) : Str :=
  markerFixAux marker (s.length + 1) true s

/-- Match `^(\s*)\d+\.(\S)` at a `^` position: `(group1, digits, group2-char, rest)`. -/
def digitMatchAt (s : Str) : Option (Str × Str × Char × Str) :=
  let w := s.takeWhile pySpace
  let r := s.drop w.length
  let ds := r.takeWhile (fun c => c.isDigit)
  if ds.isEmpty then none
  else
    match r.drop ds.length with
    | '.' :: c :: rest => if !pySpace c then some (w, ds, c, rest) else none
    | _ => none

/-- The `re.sub` scan for line 135: pattern `^(\s*)\d+\.(\S)`, replacement
`r'\1\g<0> \2'` — `group(0)` (which already contains `group(1)` and
`group(2)`) is re-inserted whole between `\1` and the space. -/
def digitFixAux : Nat → Bool → Str → Str
  | 0, _, s => s
  | fuel + 1, atBOL, s =>
    match (if atBOL then digitMatchAt s else none) with
    | some (w, ds, c, rest) =>
      w ++ (w ++ ds ++ '.' :: [c]) ++ ' ' :: c :: digitFixAux fuel false rest
    | none =>
      match s with
      | [] => []
      | ch :: t => ch :: digitFixAux fuel (ch == '\n') t

/-- Line 135. -/
def digitFix (s : Str) : Str := digitFixAux (s.length + 1) true s

/-! ## Code fences, blank lines, final newline (server.py lines 137-145) -/

/-- A line matching `^```(\w+)?` up to its newline: three backticks followed
only by word characters (`\w` = letters, digits, `_`). -/
def isFenceLine (l : Str) : Bool :=
  (chars "```").isPrefixOf l && (l.drop 3).all (fun c => c.isAlphanum || c == '_')

/-- Line 138: `re.sub(r'^```(\w+)?\n\n', r'```\1\n', s, flags=re.MULTILINE)`.
On the line list this deletes the single empty line right after a fence line,
provided a further line follows (the pattern needs both newlines); scanning
resumes after the consumed text. -/
def fencePass : List Str → List Str
  | [] => []
  | [l] => [l]
  | l :: m :: rest =>
    if isFenceLine l && m.isEmpty && !rest.isEmpty then l :: fencePass rest
    else l :: fencePass (m :: rest)

/-- Line 141: `re.sub(r'\n{4,}', '\n\n\n', s)` — every maximal run of four or
more newlines becomes exactly three, i.e. newline runs are capped at 3. -/
def collapseNLAux : Nat → Str → Str
  | _, [] => []
  | k, c :: t =>
    if c = '\n' then
      if k < 3 then '\n' :: collapseNLAux (k + 1) t else collapseNLAux k t
    else c :: collapseNLAux 0 t

/-- Line 141. -/
def collapseNL (s : Str) : Str := collapseNLAux 0 s

/-- Lines 143-145: append a final newline unless one is already there. -/
def ensureFinalNL (s : Str) : Str :=
  if s.getLast? = some '\n' then s else s ++ ['\n']

/-! ## The sanitizer (server.py lines 28-147) -/

/-- `sanitize_markdown_content`: control-character stripping, table repair,
heading-hierarchy repair, list-marker fixes, fence blank-line removal, blank
line collapsing, final newline; returns `(sanitized, warnings)`. -/
def sanitize_markdown_content (content : Str) : Str × List Str :=
  let s0 := content.filter (fun c => !isCtrlChar c)
  let tp := tablePass 0 (splitNL s0) initTableSt
  let s1 := joinNL tp.fixed_lines
  let hp := headingFixPass s1
  let s2 := markerFix '-' hp.1
  let s3 := markerFix '*' s2
  let s4 := digitFix s3
  let s5 := joinNL (fencePass (splitNL s4))
  let s6 := collapseNL s5
  (ensureFinalNL s6, tp.warnings ++ hp.2)

/-! ## The validator (server.py lines 150-216) -/

/-- Error `"Content is empty"` (line 164). -/
def emptyMsg : Str := chars "Content is empty"

/-- Error `f"Malformed table row at line {i}: insufficient column separators"`
(line 184). -/
def malformedMsg (n : Nat) : Str :=
  chars "Malformed table row at line " ++ natToDec n ++
    chars ": insufficient column separators"

/-- Error `f"Heading level too deep: {max_level} (maximum is 6)"` (line 204). -/
def deepMsg (m : Nat) : Str :=
  chars "Heading level too deep: " ++ natToDec m ++ chars " (maximum is 6)"

/-- Error `"Unclosed code block detected"` (line 209). -/
def fenceMsg : Str := chars "Unclosed code block detected"

/-- Error `f"Extremely long line at {i}: {len(line)} characters"` (line 214). -/
def longMsg (n len : Nat) : Str :=
  chars "Extremely long line at " ++ natToDec n ++ chars ": " ++
    natToDec len ++ chars " characters"

/-- The malformed-row test of lines 175-184: the stripped line contains a
delimiter (`pipe_count >= 1`), has fewer than 2 of them, and starts or ends
with one. -/
def malformedRow (line : Str) : Bool :=
  let s := stripPy line
  s.contains '|' && decide (1 ≤ s.count '|') && decide (s.count '|' < 2) &&
    (startsPipe s || endsPipe s)

/-- The table loop of lines 169-193 (`enumerate(lines, 1)`): errors are only
emitted in the delimiter branch; `in_table_context` is tracked as in the
source but influences no error. -/
def valTableAux : Bool → Nat → List Str → List Str
  | _, _, [] => []
  | inCtx, i, line :: t =>
    let s := stripPy line
    if s.contains '|' then
      (if malformedRow line then [malformedMsg i] else []) ++ valTableAux true (i + 1) t
    else if inCtx && s.isEmpty then valTableAux false (i + 1) t
    else if inCtx && !s.isEmpty then valTableAux false (i + 1) t
    else valTableAux inCtx (i + 1) t

/-- `max(len(h[0]) for h in headings)` (line 202), 0 on the empty list. -/
def maxHeadingLevel (hds : List (Nat × Str × Str)) : Nat :=
  (hds.map (fun h => h.1)).foldl Nat.max 0

/-- `content.count('```')` (line 207): non-overlapping occurrences. -/
def countFence : Str → Nat
  | '`' :: '`' :: '`' :: t => countFence t + 1
  | _ :: t => countFence t
  | [] => 0

/-- The long-line loop of lines 212-214 (`enumerate(lines, 1)`). -/
def longLineErrs : Nat → List Str → List Str
  | _, [] => []
  | i, l :: t =>
    (if 10000 < l.length then [longMsg i l.length] else []) ++ longLineErrs (i + 1) t

/-- The error list of `validate_markdown_structure` for non-empty content,
accumulated in the source's order: malformed table rows (lines 169-193),
heading depth (lines 196-204), unbalanced fences (lines 207-209), oversized
lines (lines 212-214). -/
def validateErrors (content : Str) : List Str :=
  valTableAux false 1 (splitNL content) ++
    (if (findHeadings content).isEmpty then []
     else if 6 < maxHeadingLevel (findHeadings content) then
       [deepMsg (maxHeadingLevel (findHeadings content))]
     else []) ++
    (if countFence content % 2 ≠ 0 then [fenceMsg] else []) ++
    longLineErrs 1 (splitNL content)

/-- `validate_markdown_structure`: empty check (early return), then the
accumulated structural checks; returns `(is_valid, errors)` with
`is_valid = (len(errors) == 0)`. -/
def validate_markdown_structure (content : Str) : Bool × List Str :=
  if (stripPy content).isEmpty then (false, [emptyMsg])
  else ((validateErrors content).isEmpty, validateErrors content)

end Grimd2pdf

namespace Grimd2pdf

/-! ## Predicates used to state the claims -/

/-- Heading levels step up by at most 1: every element of the list exceeds
its predecessor by at most 1. -/
def stepOkB : List Nat → Bool
  | a :: b :: t => decide (b ≤ a + 1) && stepOkB (b :: t)
  | _ => true

/-- Some line equal to `a` is immediately followed by a line equal to `b`. -/
def hasAdjacent (a b : Str) : List Str → Bool
  | x :: y :: t => (x == a && y == b) || hasAdjacent a b (y :: t)
  | _ => false

/-- The text ends with exactly one newline character. -/
def endsOneNL (s : Str) : Bool :=
  match s.reverse with
  | '\n' :: c :: _ => c != '\n'
  | ['\n'] => true
  | _ => false

/-- A line that is empty or whitespace-only. -/
def isBlankLine (l : Str) : Bool := (stripPy l).isEmpty

/-- Three consecutive blank lines occur. -/
def hasBlankRun3 : List Str → Bool
  | a :: b :: c :: t =>
    (isBlankLine a && isBlankLine b && isBlankLine c) || hasBlankRun3 (b :: c :: t)
  | _ => false

/-- After `k` newlines already seen in the current run, a run of more than 3
consecutive newline characters occurs in the text. -/
def hasLongRun : Nat → Str → Bool
  | _, [] => false
  | k, c :: t =>
    if c = '\n' then (if 3 ≤ k then true else hasLongRun (k + 1) t)
    else hasLongRun 0 t

/-- A warning reporting a header-separator insertion. -/
def isSepWarn (w : Str) : Bool :=
  (chars "Added missing table header separator at line ").isPrefixOf w

/-! ## C1 — idempotence of sanitize -/

/-- C1, counterexample.  The claim says `sanitize` is idempotent with no new
warnings on a second pass.  On `"# Report\n| Name | Age |\n"` the first pass
inserts a header separator; the second pass changes the text again and emits
a new warning, so the claim is false. -/
theorem sanitize_idempotent_counterexample :
    (sanitize_markdown_content
        (sanitize_markdown_content (chars "# Report\n| Name | Age |\n")).1).1 ≠
      (sanitize_markdown_content (chars "# Report\n| Name | Age |\n")).1 ∧
    (sanitize_markdown_content
        (sanitize_markdown_content (chars "# Report\n| Name | Age |\n")).1).2 ≠ [] := by
  decide

/-- C1, amended: `sanitize` is not idempotent.  When a pass has inserted a
table header separator, the separator line itself triggers a further
insertion on the next pass: on `"# Report\n| Name | Age |\n"` the first pass
yields the cleaned text below, and the second pass prepends yet another
separator line to it and emits one new separator warning. -/
theorem sanitize_second_pass_inserts_again :
    (sanitize_markdown_content (chars "# Report\n| Name | Age |\n")).1 =
      chars "# Report\n|---|---|---|\n| Name | Age |\n" ∧
    sanitize_markdown_content (chars "# Report\n|---|---|---|\n| Name | Age |\n") =
      (chars "# Report\n|---|---|---|---|\n|---|---|---|\n| Name | Age |\n",
       [sepWarnMsg 2]) := by
  decide

/-! ## C3 — Scenario A (missing header separator) -/

/-- C3, counterexample.  The claim says `sanitize` inserts a `| --- | --- |`
line immediately after the header row `| Name | Age |`.  In the cleaned text
no line at all follows the header row as a `| --- | --- |` line (the code
inserts `|---|---|---|` immediately before it instead). -/
theorem scenarioA_counterexample :
    hasAdjacent (chars "| Name | Age |") (chars "| --- | --- |")
      (splitNL (sanitize_markdown_content
        (chars "# Report\n| Name | Age |\n| Alice | 25 |\n| Bob | 30 |\n")).1) = false := by
  decide

/-- C3, amended.  On Scenario A's input, `sanitize` inserts the separator
line `|---|---|---|` (three dash groups: the header row's pipe count) right
before the header row, emits exactly one warning citing the insertion at
line 2, and `validate` accepts the cleaned text. -/
theorem scenarioA_actual :
    sanitize_markdown_content
        (chars "# Report\n| Name | Age |\n| Alice | 25 |\n| Bob | 30 |\n") =
      (chars "# Report\n|---|---|---|\n| Name | Age |\n| Alice | 25 |\n| Bob | 30 |\n",
       [sepWarnMsg 2]) ∧
    (validate_markdown_structure
        (chars "# Report\n|---|---|---|\n| Name | Age |\n| Alice | 25 |\n| Bob | 30 |\n")).1
      = true := by
  decide

/-! ## C4 — heading monotonicity of the cleaned text -/

/-- C4, counterexample.  Heading fixes are applied with first-occurrence text
replacement, so with duplicate heading lines the wrong occurrence can be
rewritten: on `"### A\n# B\n### A\n"` the planned fix of the third heading
rewrites the first one, and the cleaned text's heading levels `[2, 1, 3]`
still contain a jump of 2. -/
theorem heading_monotonicity_counterexample :
    (sanitize_markdown_content (chars "### A\n# B\n### A\n")).1 =
      chars "## A\n# B\n### A\n" ∧
    stepOkB ((findHeadings
      (sanitize_markdown_content (chars "### A\n# B\n### A\n")).1).map (fun h => h.1))
      = false := by
  decide

/-! ## C5 — list-marker spacing -/

/-- C5: the digit-dot branch of the list-marker fix is broken in the code.
The replacement `r'\1\g<0> \2'` (server.py line 135) re-inserts the whole
match instead of the marker, so `"1.x"` becomes `"1.x x"` rather than the
`"1. x"` the spec describes; evaluating the code at the failing input. -/
theorem digit_dot_marker_eval :
    sanitize_markdown_content (chars "1.x") = (chars "1.x x\n", []) := by
  decide

/-! ## C6 — trailing newline and blank runs -/

/-- C6, counterexample.  On `"a\n\n\n"` the cleaned text is unchanged: it
ends with three newline characters (not exactly one), and its line list
`["a", "", "", ""]` contains three consecutive blank lines. -/
theorem trailing_newline_counterexample :
    (sanitize_markdown_content (chars "a\n\n\n")).1 = chars "a\n\n\n" ∧
    (endsOneNL (sanitize_markdown_content (chars "a\n\n\n")).1 &&
      !hasBlankRun3 (splitNL (sanitize_markdown_content (chars "a\n\n\n")).1)) = false := by
  decide

/-! ## C9 — warnings carry the affected line number -/

/-- C9, counterexample.  The claim says every warning contains the 1-based
number of the affected line.  On `"# A\n#### B\n"` the only warning is the
heading-hierarchy message, the affected line is line 2, and the digit `2`
does not occur in the warning at all (it names the levels 1 and 4 instead). -/
theorem warning_line_number_counterexample :
    (sanitize_markdown_content (chars "# A\n#### B\n")).2 = [hdgWarnMsg 1 4] ∧
    hasSub (chars "2") (hdgWarnMsg 1 4) = false := by
  decide

end Grimd2pdf
namespace Grimd2pdf

/-! ## C7 — empty rejection -/

/-- C7: on input whose stripped text is empty (the empty string, or any
whitespace-only string), `validate_markdown_structure` returns immediately
with `is_valid = false` and the single error `"Content is empty"`; no other
check runs. -/
theorem validate_empty_rejection (content : Str) (h : stripPy content = []) :
    validate_markdown_structure content = (false, [emptyMsg]) := by
  simp [validate_markdown_structure, h]

/-- Witness for `validate_empty_rejection` at the two inputs the claim
names. -/
theorem validate_empty_rejection_witness :
    validate_markdown_structure (chars "") = (false, [emptyMsg]) ∧
    validate_markdown_structure (chars "   \n  \n") = (false, [emptyMsg]) :=
  ⟨validate_empty_rejection (chars "") (by decide),
   validate_empty_rejection (chars "   \n  \n") (by decide)⟩

/-! ## C4 (amended) — the hierarchy scan's planned levels are monotone -/

/-- A heading match's level is between 1 and 6 (the regex allows `#{1,6}`). -/
lemma headingMatchAt_level {s : Str} {x : Nat × Str × Str}
    (h : headingMatchAt s = some x) : 1 ≤ x.1 ∧ x.1 ≤ 6 := by
  simp only [headingMatchAt] at h
  split at h
  case isTrue hg =>
    split at h
    · exact absurd h (by simp)
    · split at h
      · cases h; exact hg
      · split at h
        · split at h
          · cases h; exact hg
          · exact absurd h (by simp)
        · exact absurd h (by simp)
  case isFalse hg => exact absurd h (by simp)

/-- Every heading the scanner finds has level between 1 and 6. -/
lemma findHeadingsAux_level :
    ∀ (fuel : Nat) (s : Str), ∀ x ∈ findHeadingsAux fuel s, 1 ≤ x.1 ∧ x.1 ≤ 6 := by
  intro fuel
  induction fuel with
  | zero => intro s x hx; simp [findHeadingsAux] at hx
  | succ n ih =>
    intro s x hx
    unfold findHeadingsAux at hx
    split at hx
    · simp at hx
    · split at hx
      case h_1 a g2 g0 heq =>
        rcases List.mem_cons.1 hx with h1 | h2
        · subst h1; exact headingMatchAt_level heq
        · exact ih _ _ h2
      case h_2 heq => exact ih _ _ hx

/-- The planned level is at least 1 when the incoming level is. -/
lemma fixLevel_pos {prev l : Nat} (hl : 1 ≤ l) : 1 ≤ fixLevel prev l := by
  unfold fixLevel; split <;> omega

/-- The planned level steps at most one above a positive previous level. -/
lemma fixLevel_le {prev l : Nat} (hp : 1 ≤ prev) : fixLevel prev l ≤ prev + 1 := by
  unfold fixLevel; split <;> omega

lemma plannedLevels_stepOk_aux :
    ∀ (ls : List Nat) (prev : Nat), 1 ≤ prev → (∀ l ∈ ls, 1 ≤ l) →
      stepOkB (prev :: plannedLevels prev ls) = true := by
  intro ls
  induction ls with
  | nil => intro prev _ _; rfl
  | cons l t ih =>
    intro prev hp hl
    have hl1 : 1 ≤ l := hl l (by simp)
    have step : stepOkB (prev :: fixLevel prev l :: plannedLevels (fixLevel prev l) t) =
        (decide (fixLevel prev l ≤ prev + 1) &&
          stepOkB (fixLevel prev l :: plannedLevels (fixLevel prev l) t)) := rfl
    show stepOkB (prev :: fixLevel prev l :: plannedLevels (fixLevel prev l) t) = true
    rw [step, ih (fixLevel prev l) (fixLevel_pos hl1) (fun m hm => hl m (by simp [hm])),
      decide_eq_true (fixLevel_le hp), Bool.true_and]

/-- C4, amended.  The hierarchy-repair scan itself is monotone: the corrected
heading-level sequence it tracks through `prev_level` never increases by more
than 1 at a step.  (The cleaned *text* can still violate this — see the
counterexample — because fixes are applied by first-occurrence text
replacement, which can rewrite a duplicate of the offending heading line.) -/
theorem planned_heading_levels_monotone (s : Str) :
    stepOkB (plannedLevels 0 ((findHeadings s).map (fun h => h.1))) = true := by
  cases hfh : (findHeadings s).map (fun h => h.1) with
  | nil => rfl
  | cons l t =>
    have hmem : ∀ m ∈ l :: t, 1 ≤ m := by
      intro m hm
      rw [← hfh] at hm
      obtain ⟨y, hy, hy2⟩ := List.mem_map.1 hm
      have hb := findHeadingsAux_level (s.length + 1) s y (by
        unfold findHeadings at hy; exact hy)
      omega
    have h0 : fixLevel 0 l = l := by unfold fixLevel; split <;> omega
    show stepOkB (fixLevel 0 l :: plannedLevels (fixLevel 0 l) t) = true
    rw [h0]
    exact plannedLevels_stepOk_aux t l (hmem l (by simp))
      (fun m hm => hmem m (by simp [hm]))

/-! ## C6 (amended) — final newline and capped newline runs -/

/-- Output of the blank-line collapse never contains a run of more than
three newlines (counting `k` newlines already open). -/
lemma collapseNLAux_no_run :
    ∀ (s : Str) (k : Nat), hasLongRun k (collapseNLAux k s) = false := by
  intro s
  induction s with
  | nil => intro k; rfl
  | cons c t ih =>
    intro k
    by_cases hc : c = '\n'
    · subst hc
      by_cases hk : k < 3
      · have h1 : collapseNLAux k ('\n' :: t) = '\n' :: collapseNLAux (k + 1) t := by
          simp [collapseNLAux, hk]
        have h2 : hasLongRun k ('\n' :: collapseNLAux (k + 1) t) =
            if 3 ≤ k then true else hasLongRun (k + 1) (collapseNLAux (k + 1) t) := rfl
        rw [h1, h2, if_neg (by omega)]
        exact ih (k + 1)
      · have h1 : collapseNLAux k ('\n' :: t) = collapseNLAux k t := by
          simp [collapseNLAux, hk]
        rw [h1]
        exact ih k
    · have h1 : collapseNLAux k (c :: t) = c :: collapseNLAux 0 t := by
        simp [collapseNLAux, hc]
      have h2 : hasLongRun k (c :: collapseNLAux 0 t) =
          hasLongRun 0 (collapseNLAux 0 t) := by
        simp [hasLongRun, hc]
      rw [h1, h2]
      exact ih 0

/-- Appending a final newline to a text that does not end in one cannot
create a long newline run. -/
lemma hasLongRun_append_nl :
    ∀ (s : Str), s ≠ [] → s.getLast? ≠ some '\n' →
      ∀ k, hasLongRun k s = false → hasLongRun k (s ++ ['\n']) = false := by
  intro s
  induction s with
  | nil => intro h; exact absurd rfl h
  | cons c t ih =>
    intro _ hlast k hrun
    by_cases hc : c = '\n'
    · subst hc
      have h3 : ¬ 3 ≤ k := by
        intro h3
        have heq : hasLongRun k ('\n' :: t) = true := by
          have : hasLongRun k ('\n' :: t) =
              if 3 ≤ k then true else hasLongRun (k + 1) t := rfl
          rw [this, if_pos h3]
        rw [heq] at hrun
        exact absurd hrun (by simp)
      have hrun' : hasLongRun (k + 1) t = false := by
        have heq : hasLongRun k ('\n' :: t) =
            if 3 ≤ k then true else hasLongRun (k + 1) t := rfl
        rw [heq, if_neg h3] at hrun
        exact hrun
      have hgoal : hasLongRun k (('\n' :: t) ++ ['\n']) =
          if 3 ≤ k then true else hasLongRun (k + 1) (t ++ ['\n']) := rfl
      rw [hgoal, if_neg h3]
      cases t with
      | nil => exact absurd rfl hlast
      | cons d t' =>
        rw [List.getLast?_cons_cons] at hlast
        exact ih (by simp) hlast (k + 1) hrun'
    · have hrun' : hasLongRun 0 t = false := by
        have heq : hasLongRun k (c :: t) = hasLongRun 0 t := by simp [hasLongRun, hc]
        rw [heq] at hrun
        exact hrun
      have hgoal : hasLongRun k ((c :: t) ++ ['\n']) = hasLongRun 0 (t ++ ['\n']) := by
        simp [hasLongRun, hc]
      rw [hgoal]
      cases t with
      | nil => decide
      | cons d t' =>
        rw [List.getLast?_cons_cons] at hlast
        exact ih (by simp) hlast 0 hrun'

lemma ensureFinalNL_last (s : Str) : (ensureFinalNL s).getLast? = some '\n' := by
  unfold ensureFinalNL
  split
  · assumption
  · exact List.getLast?_concat _

lemma ensureFinalNL_no_run (s : Str) (h : hasLongRun 0 s = false) :
    hasLongRun 0 (ensureFinalNL s) = false := by
  unfold ensureFinalNL
  split
  · exact h
  · next hne =>
    rcases eq_or_ne s [] with rfl | hne2
    · decide
    · exact hasLongRun_append_nl s hne2 hne 0 h

/-- C6, amended.  For every non-empty input, the cleaned text ends with a
newline character (possibly preceded by further newlines — "exactly one" is
refuted by the counterexample) and never contains a run of four or more
consecutive newline characters (up to two blank lines between non-blank
content; up to three blank lines can survive at the document edges, where
fewer newline characters than blank lines are involved). -/
theorem sanitize_trailing_newline (x : Str) (_h : x ≠ []) :
    ((sanitize_markdown_content x).1).getLast? = some '\n' ∧
    hasLongRun 0 (sanitize_markdown_content x).1 = false := by
  obtain ⟨z, w, hzw⟩ : ∃ z w,
      sanitize_markdown_content x = (ensureFinalNL (collapseNL z), w) := ⟨_, _, rfl⟩
  rw [hzw]
  exact ⟨ensureFinalNL_last _, ensureFinalNL_no_run _ (collapseNLAux_no_run z 0)⟩

/-- Witness for `sanitize_trailing_newline`. -/
theorem sanitize_trailing_newline_witness :
    ((sanitize_markdown_content (chars "a\n\n\n")).1).getLast? = some '\n' ∧
    hasLongRun 0 (sanitize_markdown_content (chars "a\n\n\n")).1 = false :=
  sanitize_trailing_newline (chars "a\n\n\n") (by decide)

end Grimd2pdf
namespace Grimd2pdf

/-! ## C10 — table-repair warnings cite input-line positions -/

lemma isSepWarn_sep (n : Nat) : isSepWarn (sepWarnMsg n) = true := by
  unfold isSepWarn sepWarnMsg
  exact List.isPrefixOf_iff_prefix.2 (List.prefix_append _ _)

lemma isSepWarn_row (n : Nat) : isSepWarn (rowWarnMsg n) = false := rfl

lemma isSepWarn_conv (n : Nat) : isSepWarn (convWarnMsg n) = false := rfl

/-- One table-repair step only appends: it adds `1 + (separator insertions)`
lines and only warnings that cite line `i + 1`. -/
lemma tableStep_delta (i : Nat) (line : Str) (st : TableSt) :
    ∃ neww newl,
      (tableStep i line st).warnings = st.warnings ++ neww ∧
      (tableStep i line st).fixed_lines = st.fixed_lines ++ newl ∧
      newl.length = 1 + neww.countP isSepWarn ∧
      ∀ m ∈ neww, m = sepWarnMsg (i + 1) ∨ m = rowWarnMsg (i + 1) ∨ m = convWarnMsg (i + 1) := by
  by_cases h1 : '|' ∈ stripPy line
  · by_cases h2 : sepNeeded i st ((stripPy line).count '|') = true
    · by_cases h3 : (rowFix line (stripPy line)).isSome = true
      · refine ⟨[sepWarnMsg (i + 1), rowWarnMsg (i + 1)],
          [mkSeparator ((stripPy line).count '|'), (rowFix line (stripPy line)).getD line],
          ?_, ?_, ?_, ?_⟩
        · simp [tableStep, h1, h2, h3]
        · simp [tableStep, h1, h2, h3]
        · simp [List.countP_cons, isSepWarn_sep, isSepWarn_row]
        · intro m hm
          rcases List.mem_cons.1 hm with rfl | hm
          · exact Or.inl rfl
          · simp at hm; subst hm; exact Or.inr (Or.inl rfl)
      · refine ⟨[sepWarnMsg (i + 1)],
          [mkSeparator ((stripPy line).count '|'), (rowFix line (stripPy line)).getD line],
          ?_, ?_, ?_, ?_⟩
        · simp [tableStep, h1, h2, h3]
        · simp [tableStep, h1, h2, h3]
        · simp [List.countP_cons, isSepWarn_sep]
        · intro m hm; simp at hm; subst hm; exact Or.inl rfl
    · by_cases h3 : (rowFix line (stripPy line)).isSome = true
      · refine ⟨[rowWarnMsg (i + 1)], [(rowFix line (stripPy line)).getD line], ?_, ?_, ?_, ?_⟩
        · simp [tableStep, h1, h2, h3]
        · simp [tableStep, h1, h2, h3]
        · simp [List.countP_cons, isSepWarn_row]
        · intro m hm; simp at hm; subst hm; exact Or.inr (Or.inl rfl)
      · refine ⟨[], [(rowFix line (stripPy line)).getD line], ?_, ?_, ?_, ?_⟩
        · simp [tableStep, h1, h2, h3]
        · simp [tableStep, h1, h2, h3]
        · simp
        · intro m hm; simp at hm
  · by_cases h2 : st.in_table = true ∧ ¬ stripPy line = []
    · rcases hfc : findCells (stripPy line) with _ | cells
      · refine ⟨[], [line], ?_, ?_, by simp, by simp⟩
        · simp [tableStep, h1, h2, hfc]
        · simp [tableStep, h1, h2, hfc]
      · by_cases h3 : 2 ≤ cells.length
        · refine ⟨[convWarnMsg (i + 1)], [mkRow cells], ?_, ?_, ?_, ?_⟩
          · simp [tableStep, h1, h2, hfc, h3]
          · simp [tableStep, h1, h2, hfc, h3]
          · simp [List.countP_cons, isSepWarn_conv]
          · intro m hm; simp at hm; subst hm; exact Or.inr (Or.inr rfl)
        · refine ⟨[], [line], ?_, ?_, by simp, by simp⟩
          · simp [tableStep, h1, h2, hfc, h3]
          · simp [tableStep, h1, h2, hfc, h3]
    · refine ⟨[], [line], ?_, ?_, by simp, by simp⟩
      · simp [tableStep, h1, h2]
      · simp [tableStep, h1, h2]

/-- The table-repair loop only appends, and adds exactly one output line per
input line plus one per separator warning. -/
lemma tablePass_delta :
    ∀ (ls : List Str) (i : Nat) (st : TableSt), ∃ neww newl,
      (tablePass i ls st).warnings = st.warnings ++ neww ∧
      (tablePass i ls st).fixed_lines = st.fixed_lines ++ newl ∧
      newl.length = ls.length + neww.countP isSepWarn := by
  intro ls
  induction ls with
  | nil => intro i st; exact ⟨[], [], by simp [tablePass], by simp [tablePass], by simp⟩
  | cons l t ih =>
    intro i st
    obtain ⟨w1, l1, hw1, hl1, hlen1, _⟩ := tableStep_delta i l st
    obtain ⟨w2, l2, hw2, hl2, hlen2⟩ := ih (i + 1) (tableStep i l st)
    refine ⟨w1 ++ w2, l1 ++ l2, ?_, ?_, ?_⟩
    · show (tablePass (i + 1) t (tableStep i l st)).warnings = _
      rw [hw2, hw1, List.append_assoc]
    · show (tablePass (i + 1) t (tableStep i l st)).fixed_lines = _
      rw [hl2, hl1, List.append_assoc]
    · simp only [List.length_append, List.countP_append, List.length_cons]
      omega

/-- Every warning the table-repair loop adds has one of the three
line-numbered table shapes. -/
lemma tablePass_warn_mem :
    ∀ (ls : List Str) (i : Nat) (st : TableSt) (m : Str),
      m ∈ (tablePass i ls st).warnings →
      m ∈ st.warnings ∨ ∃ n, m = sepWarnMsg n ∨ m = rowWarnMsg n ∨ m = convWarnMsg n := by
  intro ls
  induction ls with
  | nil => intro i st m hm; exact Or.inl hm
  | cons l t ih =>
    intro i st m hm
    rcases ih (i + 1) (tableStep i l st) m hm with h | h
    · obtain ⟨w1, _, hw1, _, _, hmem⟩ := tableStep_delta i l st
      rw [hw1] at h
      rcases List.mem_append.1 h with h' | h'
      · exact Or.inl h'
      · exact Or.inr ⟨i + 1, hmem m h'⟩
    · exact Or.inr h

/-- C10: table-repair warnings cite positions in the (control-stripped) input
line list, not in the rewritten output.  First conjunct: a step processing
input line `i` (0-based) only emits warnings citing line `i + 1`, appends
exactly `1 + (separator insertions)` output lines, and never touches what was
already emitted — so the cleaned-output position of a repaired line exceeds
its input position by the number of separator lines inserted before it.
Second conjunct, globally: the output line count is the input line count plus
the number of separator-insertion warnings. -/
theorem table_warnings_cite_input_positions (x : Str) :
    (∀ (st : TableSt) (i : Nat) (line : Str), ∃ neww newl,
        (tableStep i line st).warnings = st.warnings ++ neww ∧
        (tableStep i line st).fixed_lines = st.fixed_lines ++ newl ∧
        newl.length = 1 + neww.countP isSepWarn ∧
        ∀ m ∈ neww,
          m = sepWarnMsg (i + 1) ∨ m = rowWarnMsg (i + 1) ∨ m = convWarnMsg (i + 1)) ∧
    (tablePass 0 (splitNL (x.filter (fun c => !isCtrlChar c))) initTableSt).fixed_lines.length
      = (splitNL (x.filter (fun c => !isCtrlChar c))).length +
        ((tablePass 0 (splitNL (x.filter (fun c => !isCtrlChar c))) initTableSt).warnings.countP
          isSepWarn) := by
  constructor
  · intro st i line
    exact tableStep_delta i line st
  · obtain ⟨w, l, hw, hl, hlen⟩ :=
      tablePass_delta (splitNL (x.filter (fun c => !isCtrlChar c))) 0 initTableSt
    rw [hw, hl]
    simp only [initTableSt, List.nil_append]
    exact hlen

end Grimd2pdf
namespace Grimd2pdf

/-! ## C9 (amended) — the shapes of sanitize warnings -/

/-- Every warning the heading scan emits names two levels. -/
lemma headingScan_warn_mem :
    ∀ (hs : List (Nat × Str × Str)) (prev : Nat) (m : Str),
      m ∈ (headingScan prev hs).2 → ∃ p c, m = hdgWarnMsg p c := by
  intro hs
  induction hs with
  | nil => intro prev m hm; simp [headingScan] at hm
  | cons h t ih =>
    intro prev m hm
    obtain ⟨l, g2, g0⟩ := h
    simp only [headingScan] at hm
    split at hm
    · rcases List.mem_cons.1 hm with h1 | h2
      · exact ⟨prev, l, h1⟩
      · exact ih _ _ h2
    · exact ih _ _ hm

lemma headingFixPass_warn_mem (s : Str) (m : Str) (hm : m ∈ (headingFixPass s).2) :
    ∃ p c, m = hdgWarnMsg p c := by
  simp only [headingFixPass] at hm
  split at hm
  · simp at hm
  · exact headingScan_warn_mem _ _ _ hm

/-- C9, amended.  Every warning `sanitize_markdown_content` emits is either a
table-repair warning carrying an embedded line number (separator insertion,
row edge repair, or plain-text-to-row conversion) or a heading-hierarchy
warning naming the two heading levels involved — heading warnings carry no
line number (refuted conjunct of the original claim, see the
counterexample). -/
theorem sanitize_warning_shapes (x : Str) :
    ∀ m ∈ (sanitize_markdown_content x).2,
      (∃ n, m = sepWarnMsg n ∨ m = rowWarnMsg n ∨ m = convWarnMsg n) ∨
      ∃ p c, m = hdgWarnMsg p c := by
  intro m hm
  obtain ⟨z, hz⟩ : ∃ z, (sanitize_markdown_content x).2 =
      (tablePass 0 (splitNL (x.filter (fun c => !isCtrlChar c))) initTableSt).warnings ++
        (headingFixPass z).2 := ⟨_, rfl⟩
  rw [hz] at hm
  rcases List.mem_append.1 hm with h | h
  · rcases tablePass_warn_mem _ _ _ _ h with h0 | hsh
    · simp [initTableSt] at h0
    · exact Or.inl hsh
  · exact Or.inr (headingFixPass_warn_mem _ _ h)

/-- Witness for `sanitize_warning_shapes`, at the heading-jump scenario. -/
theorem sanitize_warning_shapes_witness :
    (∃ n, hdgWarnMsg 1 4 = sepWarnMsg n ∨ hdgWarnMsg 1 4 = rowWarnMsg n ∨
        hdgWarnMsg 1 4 = convWarnMsg n) ∨
    ∃ p c, hdgWarnMsg 1 4 = hdgWarnMsg p c :=
  sanitize_warning_shapes (chars "# A\n#### B\n") (hdgWarnMsg 1 4) (by decide)

end Grimd2pdf
namespace Grimd2pdf

/-! ## C8 — exact characterization of the malformed-table-row errors -/

lemma digitVal_digitChar {k : Nat} (hk : k < 10) : digitVal (digitChar k) = k := by
  interval_cases k <;> rfl

lemma decVal_append_digit (s : Str) (d : Char) :
    decVal (s ++ [d]) = decVal s * 10 + digitVal d := by
  unfold decVal
  rw [List.foldl_append]
  rfl

lemma natToDecAux_val : ∀ (fuel n : Nat), n < 10 ^ fuel → decVal (natToDecAux fuel n) = n := by
  intro fuel
  induction fuel with
  | zero => intro n hn; interval_cases n; rfl
  | succ f ih =>
    intro n hn
    by_cases h10 : n < 10
    · have heq : natToDecAux (f + 1) n = [digitChar n] := by simp [natToDecAux, h10]
      rw [heq]
      simpa [decVal] using digitVal_digitChar h10
    · have heq : natToDecAux (f + 1) n = natToDecAux f (n / 10) ++ [digitChar (n % 10)] := by
        simp [natToDecAux, h10]
      have hdiv : n / 10 < 10 ^ f := by
        rw [Nat.div_lt_iff_lt_mul (by norm_num)]
        calc n < 10 ^ (f + 1) := hn
        _ = 10 ^ f * 10 := by ring
      rw [heq, decVal_append_digit, ih (n / 10) hdiv,
        digitVal_digitChar (Nat.mod_lt n (by norm_num))]
      omega

lemma natToDec_val (n : Nat) : decVal (natToDec n) = n := by
  apply natToDecAux_val
  calc n < 10 ^ n := Nat.lt_pow_self (by norm_num) n
  _ ≤ 10 ^ (n + 1) := Nat.pow_le_pow_right (by norm_num) (Nat.le_succ n)

lemma natToDec_inj {a b : Nat} (h : natToDec a = natToDec b) : a = b := by
  have ha := natToDec_val a
  rw [← ha, h, natToDec_val b]

lemma malformedMsg_inj {a b : Nat} (h : malformedMsg a = malformedMsg b) : a = b := by
  unfold malformedMsg at h
  exact natToDec_inj (List.append_cancel_left (List.append_cancel_right h))

lemma malformedMsg_head (n : Nat) : (malformedMsg n).head? = some 'M' := rfl

lemma longMsg_head (n len : Nat) : (longMsg n len).head? = some 'E' := rfl

lemma fenceMsg_head : fenceMsg.head? = some 'U' := rfl

/-- The malformed-row test, rephrased as the claim states it. -/
lemma malformedRow_iff (line : Str) :
    malformedRow line = true ↔
      ((stripPy line).count '|' = 1 ∧
        (startsPipe (stripPy line) = true ∨ endsPipe (stripPy line) = true)) := by
  unfold malformedRow
  rw [Bool.and_eq_true, Bool.and_eq_true, Bool.and_eq_true, Bool.or_eq_true]
  constructor
  · rintro ⟨⟨⟨_, h1⟩, h2⟩, h3⟩
    have h1' := of_decide_eq_true h1
    have h2' := of_decide_eq_true h2
    exact ⟨by omega, h3⟩
  · rintro ⟨hcount, hor⟩
    have hmem : '|' ∈ stripPy line := List.count_pos_iff.1 (by omega)
    exact ⟨⟨⟨List.elem_eq_true_of_mem hmem, decide_eq_true (by omega)⟩,
      decide_eq_true (by omega)⟩, hor⟩

/-- Membership in the malformed-row error list, exactly: the message for
1-based line `i + d` is present iff the line at 0-based index `d` satisfies
the malformed-row test. -/
lemma valTableAux_mem :
    ∀ (ls : List Str) (b : Bool) (i : Nat) (m : Str),
      m ∈ valTableAux b i ls ↔
        ∃ d line, ls.get? d = some line ∧ malformedRow line = true ∧
          m = malformedMsg (i + d) := by
  intro ls
  induction ls with
  | nil => intro b i m; simp [valTableAux]
  | cons l t ih =>
    intro b i m
    have shift : ∀ b', m ∈ valTableAux b' (i + 1) t →
        ∃ d line, (l :: t).get? d = some line ∧ malformedRow line = true ∧
          m = malformedMsg (i + d) := by
      intro b' hmrec
      obtain ⟨d, line, hd, hml, hm3⟩ := (ih b' (i + 1) m).1 hmrec
      exact ⟨d + 1, line, by simpa using hd, hml, by rw [hm3]; congr 1; omega⟩
    constructor
    · intro hm
      simp only [valTableAux] at hm
      split at hm
      · rcases List.mem_append.1 hm with h1 | h2
        · split at h1
          · next hml =>
            simp only [List.mem_singleton] at h1
            exact ⟨0, l, rfl, hml, by simpa using h1⟩
          · simp at h1
        · exact shift true h2
      · split at hm
        · exact shift false hm
        · split at hm
          · exact shift false hm
          · exact shift b hm
    · rintro ⟨d, line, hd, hml, rfl⟩
      cases d with
      | zero =>
        simp only [List.get?_eq_getElem?, List.getElem?_cons_zero, Option.some.injEq] at hd
        subst hd
        have hc : (stripPy l).contains '|' = true := by
          unfold malformedRow at hml
          rw [Bool.and_eq_true, Bool.and_eq_true, Bool.and_eq_true] at hml
          exact hml.1.1.1
        simp only [valTableAux]
        rw [if_pos hc]
        apply List.mem_append_left
        rw [if_pos hml]
        simp
      | succ d' =>
        have hd' : t.get? d' = some line := by simpa using hd
        have harith : i + (d' + 1) = (i + 1) + d' := by omega
        have hrec : ∀ b', malformedMsg (i + (d' + 1)) ∈ valTableAux b' (i + 1) t :=
          fun b' => (ih b' (i + 1) _).2 ⟨d', line, hd', hml, by rw [harith]⟩
        simp only [valTableAux]
        split
        · exact List.mem_append_right _ (hrec true)
        · split
          · exact hrec false
          · split
            · exact hrec false
            · exact hrec b

/-- The heading-depth error never fires: matched heading levels are capped
at 6 by the pattern itself. -/
lemma hErrs_nil (content : Str) :
    (if (findHeadings content).isEmpty then ([] : List Str)
     else if 6 < maxHeadingLevel (findHeadings content) then
       [deepMsg (maxHeadingLevel (findHeadings content))]
     else []) = [] := by
  have hle : maxHeadingLevel (findHeadings content) ≤ 6 := by
    unfold maxHeadingLevel
    have : ∀ (ls : List Nat) (acc : Nat), (∀ v ∈ ls, v ≤ 6) → acc ≤ 6 →
        ls.foldl Nat.max acc ≤ 6 := by
      intro ls
      induction ls with
      | nil => intro acc _ h2; exact h2
      | cons v t ih =>
        intro acc h1 h2
        exact ih (Nat.max acc v)
          (fun u hu => h1 u (List.mem_cons_of_mem _ hu))
          (Nat.max_le.2 ⟨h2, h1 v (by simp)⟩)
    apply this
    · intro v hv
      obtain ⟨y, hy, rfl⟩ := List.mem_map.1 hv
      exact (findHeadingsAux_level _ _ y (by unfold findHeadings at hy; exact hy)).2
    · omega
  split
  · rfl
  · rw [if_neg (by omega)]

/-- Every oversized-line error has the long-line shape. -/
lemma longLineErrs_shape :
    ∀ (ls : List Str) (i : Nat) (m : Str),
      m ∈ longLineErrs i ls → ∃ n len, m = longMsg n len := by
  intro ls
  induction ls with
  | nil => intro i m hm; simp [longLineErrs] at hm
  | cons l t ih =>
    intro i m hm
    unfold longLineErrs at hm
    rcases List.mem_append.1 hm with h | h
    · split at h
      · simp only [List.mem_singleton] at h
        exact ⟨i, l.length, h⟩
      · simp at h
    · exact ih _ _ h

/-- C8: for non-empty content, a "Malformed table row at line `i+1`" error is
recorded iff the stripped line at 0-based index `i` has exactly one delimiter
and starts or ends with one (so a line whose delimiters touch neither edge is
never flagged), and the validator's verdict is exactly "no errors". -/
theorem validate_malformed_iff (content : Str) (h : stripPy content ≠ [])
    (i : Nat) (line : Str) (hl : (splitNL content).get? i = some line) :
    (malformedMsg (i + 1) ∈ (validate_markdown_structure content).2 ↔
      ((stripPy line).count '|' = 1 ∧
        (startsPipe (stripPy line) = true ∨ endsPipe (stripPy line) = true))) ∧
    ((validate_markdown_structure content).1 = true ↔
      (validate_markdown_structure content).2 = []) := by
  have hif : validate_markdown_structure content =
      ((validateErrors content).isEmpty, validateErrors content) := by
    unfold validate_markdown_structure
    rw [if_neg (fun hh => h (List.isEmpty_iff.1 hh))]
  rw [hif]
  constructor
  · rw [← malformedRow_iff line]
    constructor
    · intro hm
      unfold validateErrors at hm
      rcases List.mem_append.1 hm with hm1 | h4
      · rcases List.mem_append.1 hm1 with hm2 | h3
        · rcases List.mem_append.1 hm2 with h1 | h2
          · obtain ⟨d, line', hd, hml, heq⟩ := (valTableAux_mem _ false 1 _).1 h1
            have hdi : d = i := by
              have := malformedMsg_inj heq
              omega
            subst hdi
            rw [hl] at hd
            injection hd with hd2
            subst hd2
            exact hml
          · rw [hErrs_nil] at h2
            simp at h2
        · have hfm : malformedMsg (i + 1) = fenceMsg := by
            split at h3
            · simpa using h3
            · simp at h3
          have := congrArg List.head? hfm
          rw [malformedMsg_head, fenceMsg_head] at this
          exact absurd this (by decide)
      · obtain ⟨n, len, heq⟩ := longLineErrs_shape _ _ _ h4
        have := congrArg List.head? heq
        rw [malformedMsg_head, longMsg_head] at this
        exact absurd this (by decide)
    · intro hml
      unfold validateErrors
      apply List.mem_append_left
      apply List.mem_append_left
      apply List.mem_append_left
      exact (valTableAux_mem _ false 1 _).2
        ⟨i, line, hl, hml, by rw [Nat.add_comm 1 i]⟩
  · exact List.isEmpty_iff

/-- Witness for `validate_malformed_iff` at `"| a\n"`, whose single line has
one delimiter touching the left edge. -/
theorem validate_malformed_iff_witness :
    (malformedMsg (0 + 1) ∈ (validate_markdown_structure (chars "| a\n")).2 ↔
      ((stripPy (chars "| a")).count '|' = 1 ∧
        (startsPipe (stripPy (chars "| a")) = true ∨
          endsPipe (stripPy (chars "| a")) = true))) ∧
    ((validate_markdown_structure (chars "| a\n")).1 = true ↔
      (validate_markdown_structure (chars "| a\n")).2 = []) :=
  validate_malformed_iff (chars "| a\n") (by decide) 0 (chars "| a") (by decide)

end Grimd2pdf
